import Mathlib

/-!
Verification development for the SuperFetch HTTP client class.

The definitions below are a shallow embedding of the class: its constructor,
URL building (a model of the WHATWG `new URL(path, base)` resolution for
http(s) URLs together with `URLSearchParams` serialization), header and body
computation, the retry loop of the private request routine, and the registry
of abort controllers keyed by `method::url`.  The network transport is an
external collaborator and is modelled as an oracle giving each dispatch
attempt its settled result (a response record, or a rejection carrying an
error name such as AbortError or TypeError).  JavaScript objects used as
maps are modelled as association lists; object spread is concatenation, and
object lookup takes the last binding (later spreads override earlier ones).
-/

/-- Association list lookup, first binding wins (models `Map.get`). -/
def alGet {α β : Type} [DecidableEq α] : List (α × β) → α → Option β
  | [], _ => none
  | (k1, v) :: r, k => if k1 = k then some v else alGet r k

/-- Association list update (models `Map.set`): replaces the first binding
for the key, or appends a new binding. -/
def alSet {α β : Type} [DecidableEq α] : List (α × β) → α → β → List (α × β)
  | [], k, v => [(k, v)]
  | (k1, v1) :: r, k, v => if k1 = k then (k, v) :: r else (k1, v1) :: alSet r k v

/-- Association list removal (models `Map.delete`). -/
def alDel {α β : Type} [DecidableEq α] : List (α × β) → α → List (α × β)
  | [], _ => []
  | (k1, v1) :: r, k => if k1 = k then r else (k1, v1) :: alDel r k

/-- JavaScript object lookup over a spread-built association list: the last
binding for a key wins, mirroring that later object spreads override earlier
ones. -/
def objGet {β : Type} (l : List (String × β)) (k : String) : Option β :=
  alGet l.reverse k

/-- JSON values (also standing for plain JavaScript objects and arrays). -/
inductive Json where
  | null
  | bool (b : Bool)
  | num (n : Int)
  | str (s : String)
  | arr (elems : List Json)
  | obj (fields : List (String × Json))

mutual

/-- JavaScript `String(value)` coercion for the values handed to
`URLSearchParams.append` (arrays join their coerced elements with commas,
`null` elements of an array coerce to the empty string). -/
def jsToString : Json → String
  | .null => "null"
  | .bool b => if b then "true" else "false"
  | .num n => toString n
  | .str s => s
  | .arr xs => String.intercalate "," (jsToStringArr xs)
  | .obj _ => "[object Object]"

/-- Element-wise coercion used by array `toString` (join with commas). -/
def jsToStringArr : List Json → List String
  | [] => []
  | .null :: r => "" :: jsToStringArr r
  | x :: r => jsToString x :: jsToStringArr r

end

/-- Escape one character for a JSON string literal (quote, backslash and
newline; other characters are emitted verbatim). -/
def jsonEscChar (c : Char) : List Char :=
  if c = '"' then ['\\', '"']
  else if c = '\\' then ['\\', '\\']
  else if c = '\n' then ['\\', 'n']
  else [c]

/-- Render a JSON string literal with surrounding quotes. -/
def jsonQuote (s : String) : String :=
  "\"" ++ String.mk (s.data.flatMap jsonEscChar) ++ "\""

mutual

/-- `JSON.stringify` over the modelled JSON values. -/
def jsonStringify : Json → String
  | .null => "null"
  | .bool b => if b then "true" else "false"
  | .num n => toString n
  | .str s => jsonQuote s
  | .arr xs => "[" ++ String.intercalate "," (jsonStringifyArr xs) ++ "]"
  | .obj fs => "\x7b" ++ String.intercalate "," (jsonStringifyFields fs) ++ "\x7d"

/-- Stringify the elements of a JSON array. -/
def jsonStringifyArr : List Json → List String
  | [] => []
  | x :: r => jsonStringify x :: jsonStringifyArr r

/-- Stringify the fields of a JSON object. -/
def jsonStringifyFields : List (String × Json) → List String
  | [] => []
  | (k, v) :: r => (jsonQuote k ++ ":" ++ jsonStringify v) :: jsonStringifyFields r

end

/-- UTF-8 encoding of one character as its list of byte values. -/
def charUtf8 (c : Char) : List Nat :=
  let n := c.toNat
  if n < 128 then [n]
  else if n < 2048 then [192 + n / 64, 128 + n % 64]
  else if n < 65536 then [224 + n / 4096, 128 + n / 64 % 64, 128 + n % 64]
  else [240 + n / 262144, 128 + n / 4096 % 64, 128 + n / 64 % 64, 128 + n % 64]

/-- UTF-8 bytes of a string. -/
def utf8Bytes (s : String) : List Nat :=
  s.data.flatMap charUtf8

/-- Uppercase hexadecimal digit. -/
def hexDig (n : Nat) : Char :=
  if n < 10 then Char.ofNat (48 + n) else Char.ofNat (55 + n)

/-- Percent-escape of one byte, `%XX` with uppercase hex. -/
def percentByte (b : Nat) : List Char :=
  ['%', hexDig (b / 16), hexDig (b % 16)]

/-- Bytes kept verbatim by the `application/x-www-form-urlencoded`
serializer: ASCII alphanumerics and `*`, `-`, `.`, `_`. -/
def urlencodedSafe (b : Nat) : Bool :=
  decide ((48 ≤ b ∧ b ≤ 57) ∨ (65 ≤ b ∧ b ≤ 90) ∨ (97 ≤ b ∧ b ≤ 122) ∨
    b = 42 ∨ b = 45 ∨ b = 46 ∨ b = 95)

/-- Encode a byte sequence per the urlencoded serializer (space becomes `+`,
safe bytes stay, everything else is percent-escaped). -/
def encodeQBytes : List Nat → List Char
  | [] => []
  | b :: r =>
    (if b = 32 then ['+'] else if urlencodedSafe b then [Char.ofNat b] else percentByte b)
      ++ encodeQBytes r

/-- Percent-encode a string for use as a query name or value. -/
def encodeQ (s : String) : String :=
  String.mk (encodeQBytes (utf8Bytes s))

/-- Value of a hexadecimal digit character, if it is one. -/
def hexVal (c : Char) : Option Nat :=
  let n := c.toNat
  if 48 ≤ n ∧ n ≤ 57 then some (n - 48)
  else if 65 ≤ n ∧ n ≤ 70 then some (n - 55)
  else if 97 ≤ n ∧ n ≤ 102 then some (n - 87)
  else none

/-- Decode a urlencoded character sequence (`+` to space, `%XX` to the byte;
a stray `%` is kept verbatim).  Multi-byte UTF-8 sequences are decoded
bytewise, which agrees with the browser on the ASCII range exercised here. -/
def decodeQChars : List Char → List Char
  | [] => []
  | '+' :: r => ' ' :: decodeQChars r
  | '%' :: a :: b :: r =>
    match hexVal a, hexVal b with
    | some x, some y => Char.ofNat (16 * x + y) :: decodeQChars r
    | _, _ => '%' :: decodeQChars (a :: b :: r)
  | c :: r => c :: decodeQChars r

/-- Decode a urlencoded string. -/
def decodeQ (s : String) : String :=
  String.mk (decodeQChars s.data)

/-- Serialize search parameters: `k=v` pairs joined with `&`, names and
values percent-encoded. -/
def serializeQuery (q : List (String × String)) : String :=
  String.intercalate "&" (q.map (fun p => encodeQ p.1 ++ "=" ++ encodeQ p.2))

/-- Split a character list at every occurrence of the separator. -/
def splitOnCh (c : Char) : List Char → List (List Char)
  | [] => [[]]
  | x :: r =>
    let res := splitOnCh c r
    if x = c then [] :: res
    else
      match res with
      | s :: rest => (x :: s) :: rest
      | [] => [[x]]

/-- Take characters until one of the stop characters is reached; returns the
taken span and the remainder (which begins with the stop character). -/
def chSpan (stops : List Char) : List Char → List Char × List Char
  | [] => ([], [])
  | c :: r =>
    if c ∈ stops then ([], c :: r)
    else
      let p := chSpan stops r
      (c :: p.1, p.2)

/-- One query-string segment as a name/value pair: the name is everything up
to the first `=`; a segment with no `=` has the empty value; empty segments
are dropped. -/
def querySeg (seg : List Char) : Option (String × String) :=
  if seg = [] then none
  else
    let p := chSpan ['='] seg
    match p.2 with
    | '=' :: v => some (decodeQ (String.mk p.1), decodeQ (String.mk v))
    | _ => some (decodeQ (String.mk p.1), "")

/-- Parse a raw query string into its list of name/value pairs. -/
def parseQuery (q : String) : List (String × String) :=
  (splitOnCh '&' q.data).filterMap querySeg

/-- Remove-dot-segments over a path split at `/`: `.` segments vanish, `..`
pops the previous segment, and a trailing `.` or `..` leaves a trailing
slash.  The accumulator holds the output segments in reverse. -/
def rds : List (List Char) → List (List Char) → List (List Char)
  | [], acc => acc.reverse
  | [['.']], acc => (([] : List Char) :: acc).reverse
  | [['.', '.']], acc => (([] : List Char) :: acc.drop 1).reverse
  | ['.'] :: rest, acc => rds rest acc
  | ['.', '.'] :: rest, acc => rds rest (acc.drop 1)
  | seg :: rest, acc => rds rest (seg :: acc)

/-- Normalize a URL path: ensure a leading slash and apply
remove-dot-segments; the empty path becomes `/`. -/
def normalizePath (p : String) : String :=
  let l := match p.data with
    | '/' :: r => r
    | r => r
  "/" ++ String.intercalate "/" ((rds (splitOnCh '/' l) []).map String.mk)

/-- A parsed URL record: scheme, authority (host and optional port), path,
parsed search parameters and fragment. -/
structure UrlRec where
  scheme : String
  authority : String
  path : String
  query : List (String × String)
  fragment : String
deriving DecidableEq

/-- ASCII letter test. -/
def isAlphaCh (c : Char) : Bool :=
  decide ((97 ≤ c.toNat ∧ c.toNat ≤ 122) ∨ (65 ≤ c.toNat ∧ c.toNat ≤ 90))

/-- Characters allowed in a URL scheme. -/
def isSchemeCh (c : Char) : Bool :=
  isAlphaCh c || decide (48 ≤ c.toNat ∧ c.toNat ≤ 57) || c == '+' || c == '-' || c == '.'

/-- Split `rest` after an authority into path, raw query and fragment. -/
def parsePQF (l : List Char) : List Char × List Char × List Char :=
  let p := chSpan ['?', '#'] l
  match p.2 with
  | '?' :: r2 =>
    let q := chSpan ['#'] r2
    match q.2 with
    | '#' :: f => (p.1, q.1, f)
    | _ => (p.1, q.1, [])
  | '#' :: f => (p.1, [], f)
  | _ => (p.1, [], [])

/-- Parse an absolute URL of the form `scheme://authority/path?query#frag`.
This models the WHATWG parser on the special (http-like) URLs the client
deals with; an empty authority is a parse failure, the empty path serializes
as `/`, and dot segments are normalized away. -/
def parseAbsList (l : List Char) : Option UrlRec :=
  let sp := chSpan [':'] l
  match sp.2 with
  | ':' :: r2 =>
    if sp.1 ≠ [] ∧ sp.1.all isSchemeCh ∧ isAlphaCh (sp.1.headD 'a') then
      match r2 with
      | '/' :: '/' :: r3 =>
        let ap := chSpan ['/', '?', '#'] r3
        if ap.1 = [] then none
        else
          let pqf := parsePQF ap.2
          some { scheme := String.mk sp.1, authority := String.mk ap.1,
                 path := normalizePath (String.mk pqf.1),
                 query := parseQuery (String.mk pqf.2.1),
                 fragment := String.mk pqf.2.2 }
      | _ => none
    else none
  | _ => none

/-- The directory of a path: everything up to and including the last `/`. -/
def baseDir (p : String) : String :=
  String.mk ((p.data.reverse.dropWhile (fun c => !(c == '/'))).reverse)

/-- Resolve a reference string against a parsed base URL, following the
URL-standard cases: absolute references stand alone; `//` replaces the
authority; a leading `/` replaces the path; `?` replaces the query; `#`
replaces the fragment; anything else is merged with the base directory. -/
def resolveRef (b : UrlRec) (r : List Char) : Option UrlRec :=
  match parseAbsList r with
  | some u => some u
  | none =>
    match r with
    | [] => some { b with fragment := "" }
    | '/' :: '/' :: rest =>
      let ap := chSpan ['/', '?', '#'] rest
      if ap.1 = [] then none
      else
        let pqf := parsePQF ap.2
        some { scheme := b.scheme, authority := String.mk ap.1,
               path := normalizePath (String.mk pqf.1),
               query := parseQuery (String.mk pqf.2.1),
               fragment := String.mk pqf.2.2 }
    | '/' :: _ =>
      let pqf := parsePQF r
      some { b with path := normalizePath (String.mk pqf.1),
                    query := parseQuery (String.mk pqf.2.1),
                    fragment := String.mk pqf.2.2 }
    | '?' :: rest =>
      let q := chSpan ['#'] rest
      let f := match q.2 with
        | '#' :: f2 => f2
        | _ => []
      some { b with query := parseQuery (String.mk q.1), fragment := String.mk f }
    | '#' :: rest => some { b with fragment := String.mk rest }
    | _ =>
      let pqf := parsePQF r
      some { b with path := normalizePath (baseDir b.path ++ String.mk pqf.1),
                    query := parseQuery (String.mk pqf.2.1),
                    fragment := String.mk pqf.2.2 }

/-- `new URL(ref, base)`: the base must itself parse as an absolute URL, and
the reference is resolved against it. -/
def newURL (ref base : String) : Option UrlRec :=
  match parseAbsList base.data with
  | none => none
  | some b => resolveRef b ref.data

/-- `url.toString()`: serialize the record, re-serializing the search
parameters and omitting `?` when no parameter is present. -/
def urlToString (u : UrlRec) : String :=
  u.scheme ++ "://" ++ u.authority ++ u.path ++
    (if u.query = [] then "" else "?" ++ serializeQuery u.query) ++
    (if u.fragment = "" then "" else "#" ++ u.fragment)

/-- A JavaScript error value as thrown/rejected: its `name` and `message`. -/
structure JsError where
  name : String
  message : String
deriving DecidableEq

/-- The shapes the `data` argument of the request routine can take: `null`
(or `undefined`), a string, a plain object/array, a `FormData`, or a `Blob`
carrying its MIME type. -/
inductive JsData where
  | null
  | str (s : String)
  | obj (fields : List (String × Json))
  | formData
  | blob (btype : String)

/-- Per-request options (`RequestOptions`): token, timeout and retries
overrides, forced logging, and extra headers (`opts.headers || { }` is
modelled by the empty-list default). -/
structure ReqOptions where
  token : Option String := none
  timeout : Option Nat := none
  log : Option Bool := none
  retries : Option Nat := none
  headers : List (String × String) := []

/-- Constructor options (`SuperFetchOptions`). -/
structure SuperFetchOptions where
  token : Option String := none
  logRequests : Option Bool := none
  timeout : Option Nat := none
  retries : Option Nat := none

/-- JavaScript truthiness of an optional string (absent and empty are
falsy). -/
def truthyTok : Option String → Bool
  | none => false
  | some s => !(s == "")

/-- The bearer form of an authorization token. -/
def bearer (t : String) : String := "Bearer " ++ t

/-- The spread layer `...(tok ? \x7b Authorization: Bearer tok \x7d : \x7b\x7d)`. -/
def authLayer (t : Option String) : List (String × Option String) :=
  match t with
  | some s => if s == "" then [] else [("Authorization", some (bearer s))]
  | none => []

/-- Content type computed from the payload shape, in the order of the
source's else-if chain: FormData, Blob (its own type or octet-stream),
object (JSON), string (plain text); otherwise none (JS `undefined`). -/
def computeContentType : JsData → Option String
  | .formData => some "multipart/form-data"
  | .blob t => some (if t == "" then "application/octet-stream" else t)
  | .obj _ => some "application/json"
  | .str _ => some "text/plain"
  | .null => none

/-- A request body value: a string (JSON-stringified object or verbatim
string payload), a FormData, or a Blob. -/
inductive BodyVal where
  | str (s : String)
  | form
  | blobBody (btype : String)
deriving DecidableEq

/-- Body computed from the payload shape (objects are JSON-stringified,
strings sent as-is; none models JS `undefined`, i.e. no body). -/
def computeBody : JsData → Option BodyVal
  | .formData => some .form
  | .blob t => some (.blobBody t)
  | .obj fields => some (.str (jsonStringify (.obj fields)))
  | .str s => some (.str s)
  | .null => none

/-- The headers object dispatched with a request:
`\x7b Content-Type: ct, ...instanceAuth, ...callAuth, ...opts.headers \x7d`.
Spread is concatenation; `objGet` gives later layers precedence.  A value of
`none` models a key present with JS `undefined`. -/
def requestHeaders (instToken : Option String) (opts : ReqOptions) (data : JsData) :
    List (String × Option String) :=
  ("Content-Type", computeContentType data) ::
    (authLayer instToken ++ authLayer opts.token ++
      opts.headers.map (fun p => (p.1, some p.2)))

/-- The full request handed to `fetch`: method, built URL, merged headers
and computed body. -/
structure FetchRequest where
  method : String
  url : String
  headers : List (String × Option String)
  body : Option BodyVal
deriving DecidableEq

/-- Build the dispatched request for one call. -/
def mkFetchRequest (method url : String) (data : JsData) (instToken : Option String)
    (opts : ReqOptions) : FetchRequest :=
  { method := method, url := url, headers := requestHeaders instToken opts data,
    body := computeBody data }

/-- A settled HTTP response as the transport collaborator delivers it:
status line, headers, and the body as each of the reads the client may
perform would return it (`json()` may itself reject, e.g. a SyntaxError). -/
structure JsResponse where
  status : Nat
  statusText : String
  headers : List (String × String)
  textBody : String
  jsonBody : Except JsError Json
  blobBody : String
  bufBody : List Nat

/-- The transport outcome of one dispatch attempt: a settled response, or a
rejection with an error name (AbortError for cancellation, TypeError for a
network failure, ...). -/
inductive NetResult where
  | resp (r : JsResponse)
  | reject (name message : String)

/-- `response.ok`: status in the 200..299 range. -/
def responseOk (r : JsResponse) : Bool :=
  decide (200 ≤ r.status ∧ r.status ≤ 299)

/-- Lowercase a string (for case-insensitive header lookup). -/
def lowerStr (s : String) : String :=
  String.mk (s.data.map Char.toLower)

/-- `Headers.get`: case-insensitive lookup, first match. -/
def headerGetCI : List (String × String) → String → Option String
  | [], _ => none
  | (k1, v) :: r, k => if lowerStr k1 == lowerStr k then some v else headerGetCI r k

/-- Does `l` contain `sub` as a contiguous run? -/
def hasSubChars (sub : List Char) : List Char → Bool
  | [] => sub.isEmpty
  | c :: r => List.isPrefixOf sub (c :: r) || hasSubChars sub r

/-- `String.prototype.includes` on an optional header value; absent headers
(`?.` on null) include nothing. -/
def ctIncludes (ct : Option String) (needle : String) : Bool :=
  match ct with
  | none => false
  | some s => hasSubChars needle.data s.data

/-- A decoded response payload: parsed JSON, plain text, a blob, or a raw
binary buffer (the fallback). -/
inductive Payload where
  | json (j : Json)
  | text (s : String)
  | blobData (b : String)
  | buffer (bytes : List Nat)

/-- The message of the error thrown on a non-success status: the stringified
details object (status, statusText, headers, raw body text). -/
def statusFailureMessage (r : JsResponse) : String :=
  "Request failed: " ++ jsonStringify (.obj
    [("status", .num r.status), ("statusText", .str r.statusText),
     ("headers", .obj (r.headers.map (fun p => (p.1, .str p.2)))),
     ("body", .str r.textBody)])

/-- Decode a successful response by its declared content type, in the order
of the source chain: JSON, plain text, octet-stream blob, binary buffer
fallback. -/
def decodeResponse (r : JsResponse) : Except JsError Payload :=
  let ct := headerGetCI r.headers "Content-Type"
  if ctIncludes ct "application/json" then
    match r.jsonBody with
    | .ok j => .ok (.json j)
    | .error e => .error e
  else if ctIncludes ct "text/plain" then .ok (.text r.textBody)
  else if ctIncludes ct "application/octet-stream" then .ok (.blobData r.blobBody)
  else .ok (.buffer r.bufBody)

/-- The body of the `try` block for one attempt, given the transport
outcome: a rejection is rethrown, a non-success status raises the details
error, a success decodes the payload. -/
def attemptRun (n : NetResult) : Except JsError Payload :=
  match n with
  | .reject name msg => .error { name := name, message := msg }
  | .resp r => if responseOk r then decodeResponse r
               else .error { name := "Error", message := statusFailureMessage r }

/-- A settled request outcome: a decoded payload, or the structured failure
value with result `nok` and the error message. -/
inductive RequestOutcome where
  | payload (p : Payload)
  | nok (message : String)

/-- One turn of the retry loop: a success returns the payload, an AbortError
returns the `nok` outcome immediately, any other error retries (`none`)
while `attempt < attempts - 1` and otherwise returns the `nok` outcome. -/
def loopNext (attempts attempt : Nat) (res : Except JsError Payload) :
    Option RequestOutcome :=
  match res with
  | .ok p => some (.payload p)
  | .error e =>
    if e.name == "AbortError" then some (.nok e.message)
    else if attempt < attempts - 1 then none
    else some (.nok e.message)

/-- The retry loop, by remaining iterations: returns the settled outcome
(`none` when the loop runs out, the JS `undefined` return) together with the
number of dispatch attempts performed. -/
def requestLoop (oracle : Nat → NetResult) (attempts : Nat) :
    Nat → Nat → Option RequestOutcome × Nat
  | 0, _ => (none, 0)
  | remaining + 1, attempt =>
    match loopNext attempts attempt (attemptRun (oracle attempt)) with
    | some out => (some out, 1)
    | none =>
      let rest := requestLoop oracle attempts remaining (attempt + 1)
      (rest.1, rest.2 + 1)

/-- The abort-controller registry: controller ids by key, the abort flag of
every controller ever created, and the next fresh id. -/
structure CtrlState where
  controllers : List (String × Nat)
  pool : List (Nat × Bool)
  nextId : Nat

/-- The registry of a freshly constructed client. -/
def emptyCtrl : CtrlState :=
  { controllers := [], pool := [], nextId := 0 }

/-- The private abort routine: if a controller is registered under the key,
trigger it and delete the registry entry. -/
def abortKey (cst : CtrlState) (key : String) : CtrlState :=
  match alGet cst.controllers key with
  | some c => { cst with pool := alSet cst.pool c true,
                         controllers := alDel cst.controllers key }
  | none => cst

/-- Create an abort controller for a key: first abort any existing one, then
register a fresh, unaborted controller under the key. -/
def createController (cst : CtrlState) (key : String) : Nat × CtrlState :=
  let c1 := abortKey cst key
  (c1.nextId, { controllers := alSet c1.controllers key c1.nextId,
                pool := alSet c1.pool c1.nextId false,
                nextId := c1.nextId + 1 })

/-- `abortAll`: trigger every registered controller, then clear the map. -/
def abortAllCtrl (cst : CtrlState) : CtrlState :=
  { controllers := [],
    pool := cst.controllers.foldl (fun p e => alSet p e.2 true) cst.pool,
    nextId := cst.nextId }

/-- The client instance: configuration fields and the controller registry. -/
structure SuperFetch where
  token : Option String
  root : String
  logRequests : Bool
  defaultTimeout : Nat
  defaultRetries : Nat
  st : CtrlState

/-- Does the string start with `http://` or `https://` (the constructor
regex)? -/
def startsWithHttp (s : String) : Bool :=
  List.isPrefixOf "http://".data s.data || List.isPrefixOf "https://".data s.data

/-- The constructor: rejects a root that is empty (falsy) or does not match
the absolute-http pattern, otherwise stores the configuration (a falsy token
is stored as null, log/timeout/retries default to false and 0) with an empty
registry.  The `typeof` guard of the source is vacuous here, the argument
being a string by type. -/
def SuperFetch.make (root : String) (options : SuperFetchOptions) :
    Except JsError SuperFetch :=
  if root == "" || !(startsWithHttp root) then
    .error { name := "Error", message := "Invalid root URL provided." }
  else
    .ok { token := match options.token with
            | some t => if t == "" then none else some t
            | none => none,
          root := root,
          logRequests := options.logRequests.getD false,
          defaultTimeout := options.timeout.getD 0,
          defaultRetries := options.retries.getD 0,
          st := emptyCtrl }

/-- The forEach over `Object.entries(params)` appending search parameters:
an array value appends one pair per element, any other value appends a
single pair, values coerced to strings. -/
def appendParams (q : List (String × String)) : List (String × Json) → List (String × String)
  | [] => q
  | (k, .arr xs) :: rest => appendParams (q ++ xs.map (fun x => (k, jsToString x))) rest
  | (k, v) :: rest => appendParams (q ++ [(k, jsToString v)]) rest

/-- The private buildUrl routine: resolve the path against the root (a
failure of `new URL` is a thrown TypeError), append the parameter mapping
when it is an object (FormData and Blob are objects with no enumerable
entries), and serialize. -/
def buildUrl (root path : String) (params : JsData) : Except JsError String :=
  match newURL path root with
  | none => .error { name := "TypeError", message := "Invalid URL" }
  | some u =>
    let q := match params with
      | .obj fields => appendParams u.query fields
      | _ => u.query
    .ok (urlToString { u with query := q })

/-- Which argument buildUrl receives: the data for GET, null otherwise. -/
def reqData (method : String) (data : JsData) : JsData :=
  if method == "GET" then data else .null

/-- The observable result of one call: the settled promise value (an error
on the left is an uncaught rejection, e.g. an invalid path in `new URL`),
the number of dispatch attempts, the request dispatched on each attempt, and
the client state afterwards. -/
structure RunResult where
  res : Except JsError (Option RequestOutcome)
  dispatches : Nat
  sent : Option FetchRequest
  post : SuperFetch

/-- The private request routine: build the URL, register a fresh controller
under `method::url` (superseding any in-flight request with that key),
compute the attempt budget `1 + (retries override or default)`, and run the
retry loop against the transport oracle.  The timeout timer and explicit or
superseding aborts surface as AbortError rejections from the transport;
logging is console-only and not observable here. -/
def SuperFetch.request (sf : SuperFetch) (method path : String) (data : JsData)
    (opts : ReqOptions) (oracle : Nat → NetResult) : RunResult :=
  match buildUrl sf.root path (reqData method data) with
  | .error e => { res := .error e, dispatches := 0, sent := none, post := sf }
  | .ok url =>
    let key := method ++ "::" ++ url
    let cpair := createController sf.st key
    let attempts := 1 + (opts.retries.getD sf.defaultRetries)
    let lp := requestLoop oracle attempts attempts 0
    { res := .ok lp.1, dispatches := lp.2,
      sent := some (mkFetchRequest method url data sf.token opts),
      post := { sf with st := cpair.2 } }

/-- GET entry point: the params argument is passed as the data. -/
def SuperFetch.get (sf : SuperFetch) (path : String) (params : JsData)
    (opts : ReqOptions) (oracle : Nat → NetResult) : RunResult :=
  sf.request "GET" path params opts oracle

/-- POST entry point. -/
def SuperFetch.post (sf : SuperFetch) (path : String) (data : JsData)
    (opts : ReqOptions) (oracle : Nat → NetResult) : RunResult :=
  sf.request "POST" path data opts oracle

/-- PUT entry point. -/
def SuperFetch.put (sf : SuperFetch) (path : String) (data : JsData)
    (opts : ReqOptions) (oracle : Nat → NetResult) : RunResult :=
  sf.request "PUT" path data opts oracle

/-- PATCH entry point. -/
def SuperFetch.patch (sf : SuperFetch) (path : String) (data : JsData)
    (opts : ReqOptions) (oracle : Nat → NetResult) : RunResult :=
  sf.request "PATCH" path data opts oracle

/-- DELETE entry point: always a null data argument. -/
def SuperFetch.del (sf : SuperFetch) (path : String)
    (opts : ReqOptions) (oracle : Nat → NetResult) : RunResult :=
  sf.request "DELETE" path .null opts oracle

/-- The public abortAll method. -/
def SuperFetch.abortAll (sf : SuperFetch) : SuperFetch :=
  { sf with st := abortAllCtrl sf.st }

/-- Concrete client fixture over the test base URL, as produced by the
constructor for `https://api.test` with empty options. -/
def sfTest : SuperFetch :=
  { token := none, root := "https://api.test", logRequests := false,
    defaultTimeout := 0, defaultRetries := 0, st := emptyCtrl }

/-- A transport oracle whose every attempt is a network failure. -/
def failOracle : Nat → NetResult :=
  fun _ => .reject "TypeError" "Failed to fetch"

/-- A 200 response declaring and carrying an empty JSON object. -/
def okResponse : JsResponse :=
  { status := 200, statusText := "OK",
    headers := [("Content-Type", "application/json")],
    textBody := "\x7b\x7d", jsonBody := .ok (.obj []),
    blobBody := "", bufBody := [] }

/-- A transport oracle whose every attempt succeeds with `okResponse`. -/
def okOracle : Nat → NetResult :=
  fun _ => .resp okResponse

/-- The message carried by an AbortError rejection raised through the abort
signal (its exact text is environment-specific). -/
def abortMessage : String := "The operation was aborted."

/-- The phase of one in-flight logical request: suspended in some attempt of
the retry loop holding its controller, or settled with an outcome. -/
inductive ReqPhase where
  | inFlight (ctrl attempt : Nat)
  | done (out : RequestOutcome)

/-- Two concurrent logical requests over one shared registry. -/
structure PairSys where
  st : CtrlState
  p1 : ReqPhase
  p2 : ReqPhase

/-- Scheduler labels: which suspended request settles its current attempt. -/
inductive PairLab where
  | settle1
  | settle2

/-- Settle the current attempt of one request: if its controller has been
aborted the dispatch rejects with AbortError (the transport honors the
signal), otherwise the oracle decides the attempt; the retry-loop policy
then either finishes the request or re-enters the loop with the same
controller and the next attempt index (the retry re-dispatch is synchronous
in the source, so it is part of the same step). -/
def settlePhase (oracle : Nat → NetResult) (attempts : Nat) (cst : CtrlState) :
    ReqPhase → ReqPhase
  | .inFlight c a =>
    let res : Except JsError Payload :=
      if (alGet cst.pool c).getD false then
        .error { name := "AbortError", message := abortMessage }
      else attemptRun (oracle a)
    match loopNext attempts a res with
    | some out => .done out
    | none => .inFlight c (a + 1)
  | .done o => .done o

/-- One scheduler step: the chosen request settles its pending attempt;
settling mutates no registry state. -/
def pairStep (o1 o2 : Nat → NetResult) (att1 att2 : Nat) (s : PairSys) :
    PairLab → PairSys
  | .settle1 => { s with p1 := settlePhase o1 att1 s.st s.p1 }
  | .settle2 => { s with p2 := settlePhase o2 att2 s.st s.p2 }

/-- Run a schedule of settle steps. -/
def pairRun (o1 o2 : Nat → NetResult) (att1 att2 : Nat) (s : PairSys) :
    List PairLab → PairSys
  | [] => s
  | l :: ls => pairRun o1 o2 att1 att2 (pairStep o1 o2 att1 att2 s l) ls

/-- The supersession scenario on a fresh client: the first call registers
controller 0 under the key and suspends in its first attempt; before it
settles, a second call with the same method-and-URL key runs
createController, which aborts and evicts controller 0 and registers fresh
controller 1, then suspends in its own first attempt. -/
def supersededStart (key : String) : PairSys :=
  let c1pair := createController emptyCtrl key
  let c2pair := createController c1pair.2 key
  { st := c2pair.2, p1 := .inFlight c1pair.1 0, p2 := .inFlight c2pair.1 0 }

/-- Spec-side query serialization, following the wording of the spec:
mapping entries that are ordered sequences become repeated `key=v` pairs,
one per element, scalar entries become a single pair. -/
def specSerializeParams : List (String × Json) → List (String × String)
  | [] => []
  | (k, .arr xs) :: r => xs.map (fun x => (k, jsToString x)) ++ specSerializeParams r
  | (k, v) :: r => (k, jsToString v) :: specSerializeParams r

/-- Spec-side URL construction, following the wording of the spec: the
URL-standard resolution of the path against the base, with the flat
serialization of the parameter mapping appended to its query. -/
def specBuildUrl (root path : String) (fields : List (String × Json)) :
    Except JsError String :=
  match newURL path root with
  | none => .error { name := "TypeError", message := "Invalid URL" }
  | some u => .ok (urlToString { u with query := u.query ++ specSerializeParams fields })

/-- Spec-side base-URL validity, following the wording of the claim: a
non-empty string matching the absolute-http(s) pattern. -/
def specValidBaseUrl (root : String) : Prop :=
  root ≠ "" ∧ startsWithHttp root = true

/-- Spec-side header lookup, following the wording of the claim: per-call
custom headers take precedence, then a truthy per-call bearer token, then a
truthy instance bearer token, then the computed content type. -/
def claimedHeaderLookup (instToken : Option String) (opts : ReqOptions)
    (data : JsData) (k : String) : Option (Option String) :=
  match objGet opts.headers k with
  | some v => some (some v)
  | none =>
    if k = "Authorization" ∧ truthyTok opts.token then
      some (some (bearer (opts.token.getD "")))
    else if k = "Authorization" ∧ truthyTok instToken then
      some (some (bearer (instToken.getD "")))
    else if k = "Content-Type" then some (computeContentType data)
    else none

/-- A transport attempt outcome the retry loop treats as a retryable
failure: a rejection other than AbortError, or a non-success status. -/
def failsNonAbort : NetResult → Bool
  | .reject name _ => !(name == "AbortError")
  | .resp r => !(responseOk r)

/-- A transport oracle whose every attempt rejects through the abort
signal (as a fired timeout or an external abort produces). -/
def abortOracle : Nat → NetResult :=
  fun _ => .reject "AbortError" "The user aborted a request."

/-- A registry fixture with two live controllers. -/
def cstTest : CtrlState :=
  { controllers := [("GET::u", 0), ("POST::u", 1)],
    pool := [(0, false), (1, false)], nextId := 2 }

/-- Lemma: updating a key makes it readable. -/
theorem alGet_alSet_same {α β : Type} [DecidableEq α] (l : List (α × β)) (k : α) (v : β) :
    alGet (alSet l k v) k = some v := by
  induction l with
  | nil => simp [alSet, alGet]
  | cons h t ih =>
    by_cases hk : h.1 = k
    · simp [alSet, hk, alGet]
    · simp [alSet, hk, alGet, ih]

/-- Lemma: updating one key leaves other keys unchanged. -/
theorem alGet_alSet_ne {α β : Type} [DecidableEq α] (l : List (α × β)) (k1 k2 : α)
    (v : β) (h : k1 ≠ k2) : alGet (alSet l k1 v) k2 = alGet l k2 := by
  induction l with
  | nil => simp [alSet, alGet, h]
  | cons hd t ih =>
    by_cases hk : hd.1 = k1
    · simp [alSet, hk, alGet, h]
    · simp [alSet, hk, alGet, ih]

/-- Lemma: a successful lookup returns one of the stored values. -/
theorem alGet_mem_values {α β : Type} [DecidableEq α] (l : List (α × β)) (k : α) (v : β)
    (h : alGet l k = some v) : v ∈ l.map Prod.snd := by
  induction l with
  | nil => simp [alGet] at h
  | cons hd t ih =>
    by_cases hk : hd.1 = k
    · simp [alGet, hk] at h
      simp [← h]
    · simp [alGet, hk] at h
      simp [ih h]

/-- Lemma: lookup distributes over append, first list first. -/
theorem alGet_append {α β : Type} [DecidableEq α] (l1 l2 : List (α × β)) (k : α) :
    alGet (l1 ++ l2) k =
      match alGet l1 k with
      | some v => some v
      | none => alGet l2 k := by
  induction l1 with
  | nil => simp [alGet]
  | cons hd t ih =>
    by_cases hk : hd.1 = k
    · simp [alGet, hk]
    · simp [alGet, hk, ih]

/-- Lemma: object lookup over a spread (`++`) prefers the later object. -/
theorem objGet_append {β : Type} (l1 l2 : List (String × β)) (k : String) :
    objGet (l1 ++ l2) k =
      match objGet l2 k with
      | some v => some v
      | none => objGet l1 k := by
  simp only [objGet, List.reverse_append]
  exact alGet_append l2.reverse l1.reverse k

/-- Lemma: object lookup past a leading (earliest-spread) entry. -/
theorem objGet_cons {β : Type} (x : String × β) (l : List (String × β)) (k : String) :
    objGet (x :: l) k =
      match objGet l k with
      | some v => some v
      | none => if x.1 = k then some x.2 else none := by
  have : x :: l = [x] ++ l := rfl
  rw [this, objGet_append]
  cases objGet l k with
  | none => simp [objGet, alGet]
  | some v => simp

/-- Lemma: object lookup through a value-functor map. -/
theorem alGet_map_some {β : Type} (l : List (String × β)) (k : String) :
    alGet (l.map (fun p => (p.1, some p.2))) k = (alGet l k).map some := by
  induction l with
  | nil => simp [alGet]
  | cons hd t ih =>
    by_cases hk : hd.1 = k
    · simp [alGet, hk]
    · simp [alGet, hk, ih]

/-- Lemma: `objGet` through a value-functor map. -/
theorem objGet_map_some {β : Type} (l : List (String × β)) (k : String) :
    objGet (l.map (fun p => (p.1, some p.2))) k = (objGet l k).map some := by
  simp only [objGet, ← List.map_reverse]
  exact alGet_map_some l.reverse k

/-- Lemma: lookup in an auth spread layer — present exactly at the key
`Authorization` when the token is truthy. -/
theorem objGet_authLayer (t : Option String) (k : String) :
    objGet (authLayer t) k =
      if k = "Authorization" ∧ truthyTok t then some (some (bearer (t.getD "")))
      else none := by
  cases t with
  | none => simp [authLayer, truthyTok, objGet, alGet]
  | some s =>
    by_cases hs : s == ""
    · simp [authLayer, hs, truthyTok, objGet, alGet]
    · by_cases hk : k = "Authorization"
      · simp [authLayer, hs, truthyTok, objGet, alGet, hk]
      · simp [authLayer, hs, truthyTok, objGet, alGet, hk]
        intro h
        exact absurd h.symm hk

/-- Lemma: the merged request headers realize the claimed precedence chain —
per-call custom headers, then the per-call token, then the instance token,
then the computed content type. -/
theorem requestHeaders_lookup (instToken : Option String) (opts : ReqOptions)
    (data : JsData) (k : String) :
    objGet (requestHeaders instToken opts data) k =
      claimedHeaderLookup instToken opts data k := by
  unfold requestHeaders claimedHeaderLookup
  rw [objGet_cons, objGet_append, objGet_append, objGet_map_some,
    objGet_authLayer, objGet_authLayer]
  cases hC : objGet opts.headers k with
  | some v => simp
  | none =>
    simp only [Option.map_none']
    by_cases h1 : k = "Authorization" ∧ truthyTok opts.token
    · simp [h1]
    · simp only [if_neg h1]
      by_cases h2 : k = "Authorization" ∧ truthyTok instToken
      · simp [h2]
      · simp only [if_neg h2]
        by_cases h3 : k = "Content-Type"
        · simp [h3]
        · simp [h3, Ne.symm h3]

/-- Lemma: a retryable failure makes the attempt raise a non-AbortError. -/
theorem attemptRun_nonabort (o : NetResult) (h : failsNonAbort o = true) :
    ∃ e, attemptRun o = .error e ∧ (e.name == "AbortError") = false := by
  cases o with
  | reject name msg =>
    refine ⟨{ name := name, message := msg }, rfl, ?_⟩
    simpa [failsNonAbort] using h
  | resp r =>
    have hok : responseOk r = false := by simpa [failsNonAbort] using h
    exact ⟨{ name := "Error", message := statusFailureMessage r },
      by simp [attemptRun, hok], rfl⟩

/-- Lemma: the loop only continues while attempts remain. -/
theorem loopNext_none_lt (attempts a : Nat) (res : Except JsError Payload)
    (h : loopNext attempts a res = none) : a < attempts - 1 := by
  unfold loopNext at h
  cases res with
  | ok p => simp at h
  | error e =>
    cases hb : (e.name == "AbortError") with
    | true => simp [hb] at h
    | false =>
      by_cases hlt : a < attempts - 1
      · exact hlt
      · simp [hb, hlt] at h

/-- Lemma: when every attempt from `a` on fails retryably, the loop uses its
whole remaining budget and settles with the `nok` outcome. -/
theorem requestLoop_allFail (oracle : Nat → NetResult) (attempts r a : Nat)
    (h1 : 1 ≤ r) (h2 : a + r = attempts)
    (hf : ∀ i, a ≤ i → i < attempts → failsNonAbort (oracle i) = true) :
    ∃ m, requestLoop oracle attempts r a = (some (.nok m), r) := by
  induction r generalizing a with
  | zero => omega
  | succ r0 ih =>
    obtain ⟨e, he, hn⟩ := attemptRun_nonabort (oracle a) (hf a le_rfl (by omega))
    by_cases hr : r0 = 0
    · subst hr
      have hlt : ¬ (a < attempts - 1) := by omega
      exact ⟨e.message, by simp [requestLoop, he, loopNext, hn, hlt]⟩
    · have hlt : a < attempts - 1 := by omega
      obtain ⟨m, hm⟩ := ih (a + 1) (by omega) (by omega)
        (fun i hi1 hi2 => hf i (by omega) hi2)
      exact ⟨m, by simp [requestLoop, he, loopNext, hn, hlt, hm]⟩

/-- Lemma: when attempts before `j` fail retryably and attempt `j` rejects
with AbortError, the loop stops at attempt `j` with the `nok` outcome. -/
theorem requestLoop_abortAt (oracle : Nat → NetResult) (attempts r a j : Nat)
    (msg : String) (h2 : a + r = attempts) (haj : a ≤ j) (hj : j < attempts)
    (hf : ∀ i, a ≤ i → i < j → failsNonAbort (oracle i) = true)
    (habort : oracle j = .reject "AbortError" msg) :
    requestLoop oracle attempts r a = (some (.nok msg), j - a + 1) := by
  induction r generalizing a with
  | zero => omega
  | succ r0 ih =>
    by_cases hja : j = a
    · subst hja
      simp [requestLoop, habort, attemptRun, loopNext]
    · have haj2 : a < j := by omega
      obtain ⟨e, he, hn⟩ := attemptRun_nonabort (oracle a) (hf a le_rfl haj2)
      have hlt : a < attempts - 1 := by omega
      have hrec := ih (a + 1) (by omega) (by omega)
        (fun i hi1 hi2 => hf i (by omega) hi2)
      simp [requestLoop, he, loopNext, hn, hlt, hrec]
      omega

/-- Lemma: with at least one attempt in the budget the loop always settles
with some outcome. -/
theorem requestLoop_isSome (oracle : Nat → NetResult) (attempts r a : Nat)
    (h1 : 1 ≤ r) (h2 : a + r = attempts) :
    ∃ out n, requestLoop oracle attempts r a = (some out, n) := by
  induction r generalizing a with
  | zero => omega
  | succ r0 ih =>
    cases hl : loopNext attempts a (attemptRun (oracle a)) with
    | some out => exact ⟨out, 1, by simp [requestLoop, hl]⟩
    | none =>
      have hr0 : 1 ≤ r0 := by
        have := loopNext_none_lt attempts a _ hl
        omega
      obtain ⟨out, n, hn⟩ := ih (a + 1) hr0 (by omega)
      exact ⟨out, n + 1, by simp [requestLoop, hl, hn]⟩

/-- Lemma: the appending fold over parameter entries equals appending the
flat spec-side serialization. -/
theorem appendParams_eq (fields : List (String × Json)) :
    ∀ q, appendParams q fields = q ++ specSerializeParams fields := by
  induction fields with
  | nil => intro q; simp [appendParams, specSerializeParams]
  | cons hd t ih =>
    intro q
    match hd with
    | (k, Json.arr xs) => simp [appendParams, specSerializeParams, ih]
    | (k, Json.null) => simp [appendParams, specSerializeParams, ih]
    | (k, Json.bool b) => simp [appendParams, specSerializeParams, ih]
    | (k, Json.num n) => simp [appendParams, specSerializeParams, ih]
    | (k, Json.str s) => simp [appendParams, specSerializeParams, ih]
    | (k, Json.obj fs) => simp [appendParams, specSerializeParams, ih]

/-- Lemma: the private abort routine does not consume fresh ids. -/
theorem abortKey_nextId (cst : CtrlState) (key : String) :
    (abortKey cst key).nextId = cst.nextId := by
  unfold abortKey
  cases alGet cst.controllers key <;> rfl

/-- Lemma: creating a controller registers the fresh id under the key. -/
theorem createController_registers (cst : CtrlState) (key : String) :
    alGet (createController cst key).2.controllers key =
      some (createController cst key).1 := by
  unfold createController
  exact alGet_alSet_same _ _ _

/-- Lemma: the freshly created controller is unaborted. -/
theorem createController_unaborted (cst : CtrlState) (key : String) :
    alGet (createController cst key).2.pool (createController cst key).1 =
      some false := by
  unfold createController
  exact alGet_alSet_same _ _ _

/-- Lemma: a pool that marks an id aborted still marks it after further
abort marks. -/
theorem foldl_abort_keeps (entries : List (String × Nat)) :
    ∀ (p : List (Nat × Bool)) (c : Nat), alGet p c = some true →
      alGet (entries.foldl (fun acc e => alSet acc e.2 true) p) c = some true := by
  induction entries with
  | nil => intro p c h; simpa using h
  | cons hd t ih =>
    intro p c h
    simp only [List.foldl_cons]
    apply ih
    by_cases he : hd.2 = c
    · rw [he, alGet_alSet_same]
    · rw [alGet_alSet_ne _ _ _ _ he]; exact h

/-- Lemma: folding abort marks over the registry entries marks every
registered id aborted. -/
theorem foldl_abort_marks (entries : List (String × Nat)) :
    ∀ (p : List (Nat × Bool)) (c : Nat), c ∈ entries.map Prod.snd →
      alGet (entries.foldl (fun acc e => alSet acc e.2 true) p) c = some true := by
  induction entries with
  | nil => intro p c h; simp at h
  | cons hd t ih =>
    intro p c h
    simp only [List.map_cons, List.mem_cons] at h
    simp only [List.foldl_cons]
    rcases h with h | h
    · subst h
      by_cases hm : hd.2 ∈ t.map Prod.snd
      · exact ih _ hd.2 hm
      · exact foldl_abort_keeps t _ hd.2 (alGet_alSet_same _ _ _)
    · exact ih _ c h

/-- Lemma: settle steps never touch the registry state. -/
theorem pairStep_st (o1 o2 : Nat → NetResult) (att1 att2 : Nat) (s : PairSys)
    (l : PairLab) : (pairStep o1 o2 att1 att2 s l).st = s.st := by
  cases l <;> rfl

/-- Lemma: a whole schedule of settle steps never touches the registry. -/
theorem pairRun_st (o1 o2 : Nat → NetResult) (att1 att2 : Nat) (ls : List PairLab)
    (s : PairSys) : (pairRun o1 o2 att1 att2 s ls).st = s.st := by
  induction ls generalizing s with
  | nil => rfl
  | cons l ls ih => rw [pairRun, ih, pairStep_st]

/-- Lemma: a request holding an aborted controller either stays suspended or
settles with the `nok` cancellation outcome, under any schedule. -/
theorem pairRun_p1_aborted (o1 o2 : Nat → NetResult) (att1 att2 : Nat)
    (ls : List PairLab) (s : PairSys)
    (hpool : (alGet s.st.pool 0).getD false = true)
    (hp : (∃ a, s.p1 = .inFlight 0 a) ∨ ∃ m, s.p1 = .done (.nok m)) :
    (∃ a, (pairRun o1 o2 att1 att2 s ls).p1 = .inFlight 0 a) ∨
      ∃ m, (pairRun o1 o2 att1 att2 s ls).p1 = .done (.nok m) := by
  induction ls generalizing s with
  | nil => exact hp
  | cons l ls ih =>
    rw [pairRun]
    apply ih
    · rw [pairStep_st]; exact hpool
    · cases l with
      | settle2 => exact hp
      | settle1 =>
        rcases hp with ⟨a, ha⟩ | ⟨m, hm⟩
        · right
          refine ⟨abortMessage, ?_⟩
          show settlePhase o1 att1 s.st s.p1 = .done (.nok abortMessage)
          rw [ha]
          simp [settlePhase, hpool, loopNext]
        · right
          refine ⟨m, ?_⟩
          show settlePhase o1 att1 s.st s.p1 = .done (.nok m)
          rw [hm]
          rfl

/-- Lemma: the shape of a call once its URL has been built — a fresh
controller is registered under `method::url` and the retry loop runs with
budget `1 + effective retries`. -/
theorem request_ok (sf : SuperFetch) (method path : String) (data : JsData)
    (opts : ReqOptions) (oracle : Nat → NetResult) (url : String)
    (hurl : buildUrl sf.root path (reqData method data) = .ok url) :
    sf.request method path data opts oracle =
      { res := .ok (requestLoop oracle (1 + opts.retries.getD sf.defaultRetries)
          (1 + opts.retries.getD sf.defaultRetries) 0).1,
        dispatches := (requestLoop oracle (1 + opts.retries.getD sf.defaultRetries)
          (1 + opts.retries.getD sf.defaultRetries) 0).2,
        sent := some (mkFetchRequest method url data sf.token opts),
        post := { sf with st := (createController sf.st (method ++ "::" ++ url)).2 } } := by
  unfold SuperFetch.request
  rw [hurl]

/-- Lemma: the supersession scenario evaluated — controller 0 aborted and
evicted, controller 1 fresh and registered under the key. -/
theorem supersededStart_eval (key : String) :
    supersededStart key =
      { st := { controllers := [(key, 1)], pool := [(0, true), (1, false)], nextId := 2 },
        p1 := .inFlight 0 0, p2 := .inFlight 1 0 } := by
  simp [supersededStart, createController, abortKey, emptyCtrl, alGet, alSet, alDel]

/-- C2: a call whose effective retry count is `n` (per-call override or
instance default) and whose every attempt fails with a network error or a
non-success status performs exactly `n + 1` dispatch attempts and settles
with the structured `nok` failure outcome. -/
theorem superfetch_c2 (sf : SuperFetch) (method path : String) (data : JsData)
    (opts : ReqOptions) (oracle : Nat → NetResult) (url : String) (n : Nat)
    (hurl : buildUrl sf.root path (reqData method data) = .ok url)
    (hn : opts.retries.getD sf.defaultRetries = n)
    (hf : ∀ i, i < n + 1 → failsNonAbort (oracle i) = true) :
    (sf.request method path data opts oracle).dispatches = n + 1 ∧
      ∃ m, (sf.request method path data opts oracle).res = .ok (some (.nok m)) := by
  obtain ⟨m, hm⟩ := requestLoop_allFail oracle (1 + n) (1 + n) 0 (by omega) (by omega)
    (fun i hi1 hi2 => hf i (by omega))
  rw [request_ok sf method path data opts oracle url hurl, hn]
  refine ⟨?_, m, ?_⟩
  · simp [hm]; omega
  · simp [hm]

/-- C2 witness: three network failures with two retries configured give
three dispatches and the `nok` outcome. -/
theorem superfetch_c2_witness :
    (sfTest.request "POST" "/a" .null { retries := some 2 } failOracle).dispatches = 3 ∧
      ∃ m, (sfTest.request "POST" "/a" .null { retries := some 2 } failOracle).res =
        .ok (some (.nok m)) :=
  superfetch_c2 sfTest "POST" "/a" .null { retries := some 2 } failOracle
    "https://api.test/a" 2 rfl rfl (fun _ _ => rfl)

/-- C3: if the attempts before `j` fail retryably and attempt `j` rejects
through the cancellation handle (AbortError), the call settles immediately
with the `nok` outcome after `j + 1` dispatches, even with budget left. -/
theorem superfetch_c3 (sf : SuperFetch) (method path : String) (data : JsData)
    (opts : ReqOptions) (oracle : Nat → NetResult) (url : String) (j : Nat)
    (msg : String)
    (hurl : buildUrl sf.root path (reqData method data) = .ok url)
    (hj : j < 1 + opts.retries.getD sf.defaultRetries)
    (hf : ∀ i, i < j → failsNonAbort (oracle i) = true)
    (habort : oracle j = .reject "AbortError" msg) :
    (sf.request method path data opts oracle).dispatches = j + 1 ∧
      (sf.request method path data opts oracle).res = .ok (some (.nok msg)) := by
  have hm := requestLoop_abortAt oracle (1 + opts.retries.getD sf.defaultRetries)
    (1 + opts.retries.getD sf.defaultRetries) 0 j msg (by omega) (Nat.zero_le j) hj
    (fun i hi1 hi2 => hf i hi2) habort
  rw [request_ok sf method path data opts oracle url hurl]
  refine ⟨?_, ?_⟩
  · simp [hm]
  · simp [hm]

/-- C3 witness: an immediate abort with five retries configured gives one
dispatch and the `nok` outcome. -/
theorem superfetch_c3_witness :
    (sfTest.request "GET" "/a" .null { retries := some 5 } abortOracle).dispatches = 1 ∧
      (sfTest.request "GET" "/a" .null { retries := some 5 } abortOracle).res =
        .ok (some (.nok "The user aborted a request.")) :=
  superfetch_c3 sfTest "GET" "/a" .null { retries := some 5 } abortOracle
    "https://api.test/a" 0 "The user aborted a request." rfl (by decide)
    (fun i h => absurd h (Nat.not_lt_zero i)) rfl

/-- C1: in the supersession scenario — a second call issued under the same
`method::url` key while the first is in flight — the first call's controller
is aborted (and the fresh one registered) by createController, before the
second call's first dispatch; under every subsequent schedule the first call
can only settle with the `nok` cancellation outcome, never a payload; and
the second call keeps its fresh, unaborted, still-registered controller. -/
theorem superfetch_c1 (key : String) (o1 o2 : Nat → NetResult) (att1 att2 : Nat)
    (ls : List PairLab) :
    (alGet (supersededStart key).st.pool 0 = some true ∧
      (supersededStart key).p2 = .inFlight 1 0 ∧
      alGet (supersededStart key).st.pool 1 = some false ∧
      alGet (supersededStart key).st.controllers key = some 1) ∧
    (∀ out, (pairRun o1 o2 att1 att2 (supersededStart key) ls).p1 = .done out →
      ∃ m, out = .nok m) ∧
    alGet (pairRun o1 o2 att1 att2 (supersededStart key) ls).st.controllers key =
      some 1 ∧
    alGet (pairRun o1 o2 att1 att2 (supersededStart key) ls).st.pool 1 =
      some false := by
  refine ⟨?_, ?_, ?_, ?_⟩
  · rw [supersededStart_eval]
    refine ⟨rfl, rfl, rfl, ?_⟩
    simp [alGet]
  · intro out hout
    have hinv := pairRun_p1_aborted o1 o2 att1 att2 ls (supersededStart key)
      (by rw [supersededStart_eval]; rfl)
      (Or.inl ⟨0, by rw [supersededStart_eval]⟩)
    rcases hinv with ⟨a, ha⟩ | ⟨m, hm⟩
    · rw [hout] at ha
      exact ReqPhase.noConfusion ha
    · rw [hout] at hm
      injection hm with h
      exact ⟨m, h⟩
  · rw [pairRun_st, supersededStart_eval]
    simp [alGet]
  · rw [pairRun_st, supersededStart_eval]
    rfl

/-- C1 witness: a concrete superseded first call settles with the `nok`
cancellation outcome. -/
theorem superfetch_c1_witness :
    ∃ m, RequestOutcome.nok abortMessage = RequestOutcome.nok m :=
  (superfetch_c1 "GET::https://api.test/users" failOracle failOracle 1 1
    [PairLab.settle1]).2.1 (RequestOutcome.nok abortMessage) rfl

/-- C4: construction succeeds exactly on a non-empty root matching the
absolute-http(s) pattern (and throws otherwise); and every call whose URL
builds — whatever the transport does on each attempt: network error,
abort/timeout, or any status — settles with a value (a decoded payload or
the structured `nok` outcome) rather than rejecting. -/
theorem superfetch_c4 :
    (∀ (root : String) (options : SuperFetchOptions),
      (∃ sf, SuperFetch.make root options = .ok sf) ↔ specValidBaseUrl root) ∧
    (∀ (sf : SuperFetch) (method path : String) (data : JsData) (opts : ReqOptions)
      (oracle : Nat → NetResult) (url : String),
      buildUrl sf.root path (reqData method data) = .ok url →
      ∃ out, (sf.request method path data opts oracle).res = .ok (some out)) := by
  constructor
  · intro root options
    unfold SuperFetch.make specValidBaseUrl
    by_cases h0 : root = ""
    · subst h0
      simp
    · have h0b : (root == "") = false := by
        simp [h0]
      by_cases h1 : startsWithHttp root
      · simp [h0b, h1, h0]
      · simp [h0b, h1]
  · intro sf method path data opts oracle url hurl
    obtain ⟨out, n, hm⟩ := requestLoop_isSome oracle
      (1 + opts.retries.getD sf.defaultRetries)
      (1 + opts.retries.getD sf.defaultRetries) 0 (by omega) (by omega)
    refine ⟨out, ?_⟩
    rw [request_ok sf method path data opts oracle url hurl]
    simp [hm]

/-- C4 witness: a valid root constructs, and a concrete failing call still
settles with a value. -/
theorem superfetch_c4_witness :
    (∃ sf, SuperFetch.make "https://api.test" {} = .ok sf) ∧
      ∃ out, (sfTest.request "GET" "/a" .null {} failOracle).res = .ok (some out) :=
  ⟨(superfetch_c4.1 "https://api.test" {}).mpr ⟨by decide, rfl⟩,
    superfetch_c4.2 sfTest "GET" "/a" .null {} failOracle "https://api.test/a" rfl⟩

/-- C5 (code bug evidence): a GET whose params are an object dispatches a
request that DOES carry a body — the JSON stringification of the params —
with an `application/json` content type, because the request routine feeds
`data` into the body computation for every method.  The claim (and the
JSDoc, which calls `data` the payload for non-GET methods and the GET
argument query parameters) say a GET carries no body; a real `fetch` rejects
such a GET with a TypeError before any network activity. -/
theorem superfetch_c5_bug :
    ((sfTest.get "/users" (.obj [("id", Json.arr [Json.num 1, Json.num 2])]) {}
        failOracle).sent.map (fun fr => fr.body)) =
      some (some (.str "\x7b\"id\":[1,2]\x7d")) ∧
    ((sfTest.del "/users" {} failOracle).sent.map (fun fr => fr.body)) =
      some none := ⟨rfl, rfl⟩

/-- C6 counterexample: a request that completes successfully leaves its
registry entry in place — the controller registered at start is still found
under the key after completion, while the claim says a completed request
leaves no entry under its key. -/
theorem superfetch_c6_cx :
    (sfTest.get "/users" .null {} okOracle).res =
        .ok (some (.payload (.json (.obj [])))) ∧
      alGet (sfTest.get "/users" .null {} okOracle).post.st.controllers
        "GET::https://api.test/users" = some 0 := ⟨rfl, rfl⟩

/-- C6 amended: a fresh cancellation handle is registered under
`method::fullUrl` at request start (superseding any previous one), but
completion does not remove it: after the request settles the fresh handle is
still registered under its key; entries are removed only by a later request
with the same key or by abortAll. -/
theorem superfetch_c6_amended (sf : SuperFetch) (method path : String)
    (data : JsData) (opts : ReqOptions) (oracle : Nat → NetResult) (url : String)
    (hurl : buildUrl sf.root path (reqData method data) = .ok url) :
    alGet ((sf.request method path data opts oracle).post.st.controllers)
      (method ++ "::" ++ url) = some sf.st.nextId := by
  rw [request_ok sf method path data opts oracle url hurl]
  have h1 : (createController sf.st (method ++ "::" ++ url)).1 = sf.st.nextId := by
    show (abortKey sf.st (method ++ "::" ++ url)).nextId = sf.st.nextId
    exact abortKey_nextId sf.st (method ++ "::" ++ url)
  rw [← h1]
  exact createController_registers sf.st (method ++ "::" ++ url)

/-- C6 amended witness: after a completed successful GET the fresh handle is
still registered. -/
theorem superfetch_c6_amended_witness :
    alGet ((sfTest.request "GET" "/users" .null {} okOracle).post.st.controllers)
      "GET::https://api.test/users" = some sfTest.st.nextId :=
  superfetch_c6_amended sfTest "GET" "/users" .null {} okOracle
    "https://api.test/users" rfl

/-- C7: the built URL is the URL-standard resolution of the path against the
base with the parameter mapping serialized onto its query — array entries as
repeated `key=v` pairs, scalar entries once, values percent-encoded — and in
particular the spec scenario holds concretely. -/
theorem superfetch_c7 :
    (∀ (root path : String) (fields : List (String × Json)),
      buildUrl root path (.obj fields) = specBuildUrl root path fields) ∧
    buildUrl "https://api.test" "/users"
        (.obj [("id", Json.arr [Json.num 1, Json.num 2])]) =
      .ok "https://api.test/users?id=1&id=2" := by
  constructor
  · intro root path fields
    unfold buildUrl specBuildUrl
    cases newURL path root with
    | none => rfl
    | some u => simp [appendParams_eq]
  · rfl

/-- C8: abortAll triggers every registered controller and clears the
registry entirely, and a later call on any of those keys gets a fresh,
unaborted controller registered under its key. -/
theorem superfetch_c8 (cst : CtrlState) (key : String) :
    (abortAllCtrl cst).controllers = [] ∧
    (∀ k c, alGet cst.controllers k = some c →
      alGet (abortAllCtrl cst).pool c = some true) ∧
    alGet (abortAllCtrl cst).controllers key = none ∧
    alGet (createController (abortAllCtrl cst) key).2.controllers key =
      some (createController (abortAllCtrl cst) key).1 ∧
    alGet (createController (abortAllCtrl cst) key).2.pool
      (createController (abortAllCtrl cst) key).1 = some false := by
  refine ⟨rfl, ?_, rfl, createController_registers _ _, createController_unaborted _ _⟩
  intro k c h
  exact foldl_abort_marks cst.controllers cst.pool c (alGet_mem_values _ _ _ h)

/-- C8 witness: both registered controllers of the fixture are aborted and
the registry is cleared. -/
theorem superfetch_c8_witness :
    alGet (abortAllCtrl cstTest).pool 0 = some true ∧
      alGet (abortAllCtrl cstTest).pool 1 = some true ∧
      (abortAllCtrl cstTest).controllers = [] :=
  ⟨(superfetch_c8 cstTest "GET::u").2.1 "GET::u" 0 rfl,
    (superfetch_c8 cstTest "GET::u").2.1 "POST::u" 1 rfl,
    (superfetch_c8 cstTest "GET::u").1⟩

/-- C9: the dispatched headers realize the claimed precedence — the computed
content type lowest, then the instance bearer token, then the per-call
bearer token, then the per-call custom headers, each later layer overriding
the earlier ones at its keys. -/
theorem superfetch_c9 (instToken : Option String) (opts : ReqOptions)
    (data : JsData) (k : String) :
    objGet (requestHeaders instToken opts data) k =
      claimedHeaderLookup instToken opts data k :=
  requestHeaders_lookup instToken opts data k

/-- C10: a falsy per-call token override is ignored rather than clearing
authorization — with a truthy instance token and an empty-string per-call
token (and no explicit Authorization header) the instance bearer header is
still sent; and constructing with an empty-string token stores no token, so
such a client (absent any per-call token or explicit header) sends no
Authorization header at all. -/
theorem superfetch_c10 :
    (∀ (instT : String) (opts : ReqOptions) (data : JsData),
      instT ≠ "" → opts.token = some "" →
      objGet opts.headers "Authorization" = none →
      objGet (requestHeaders (some instT) opts data) "Authorization" =
        some (some (bearer instT))) ∧
    (∀ (root : String) (options : SuperFetchOptions) (sf : SuperFetch),
      options.token = some "" → SuperFetch.make root options = .ok sf →
      sf.token = none ∧
      ∀ (opts : ReqOptions) (data : JsData), opts.token = none →
        objGet opts.headers "Authorization" = none →
        objGet (requestHeaders sf.token opts data) "Authorization" = none) := by
  constructor
  · intro instT opts data hne htok hcust
    rw [requestHeaders_lookup]
    unfold claimedHeaderLookup
    have h1 : truthyTok (some instT) = true := by simp [truthyTok, hne]
    have h2 : truthyTok (some "") = false := by simp [truthyTok]
    simp [hcust, htok, h1, h2]
  · intro root options sf htok hmk
    have hsf : sf.token = none := by
      unfold SuperFetch.make at hmk
      by_cases hcond : (root == "" || !(startsWithHttp root)) = true
      · rw [if_pos hcond] at hmk
        exact Except.noConfusion hmk
      · rw [if_neg hcond] at hmk
        injection hmk with h
        rw [← h, htok]
        rfl
      -- the stored token is the empty-string case of the match, i.e. none
    refine ⟨hsf, ?_⟩
    intro opts data hopts hcust
    rw [requestHeaders_lookup]
    unfold claimedHeaderLookup
    simp [hcust, hopts, hsf, truthyTok]

/-- C10 witness: empty per-call token keeps the instance bearer header, and
an empty constructor token stores none. -/
theorem superfetch_c10_witness :
    objGet (requestHeaders (some "abc") { token := some "" } .null) "Authorization" =
        some (some (bearer "abc")) ∧
      ∃ sf, SuperFetch.make "https://api.test" { token := some "" } = .ok sf ∧
        sf.token = none :=
  ⟨superfetch_c10.1 "abc" { token := some "" } .null (by decide) rfl rfl,
    sfTest, rfl,
    (superfetch_c10.2 "https://api.test" { token := some "" } sfTest rfl rfl).1⟩
